import Mathlib

/-!
Shallow embedding of the QuizMe quiz-generation and session-state engine
(modules `quizcore.py`, `teach_me.py`, `testbank.py`).

Randomness (`random.sample`, `random.choice`, `random.shuffle`) is modelled
by an oracle structure `Rand`; theorems quantify over every oracle whose
draws are valid samples/choices/shuffles, which covers every behaviour the
pseudo-random source can produce.  The oracle receives a context argument
(the kind label and question text of the call site) so that distinct call
sites may draw independently.
-/

namespace QuizMe

/-- Oracle standing for Python's `random` module.  Python sets are modelled
throughout as duplicate-free lists, so the population arguments are lists. -/
structure Rand : Type 1 where
  sample : List String → List String → Nat → List String
  choice : List String → List String → String
  shuffle : {α : Type} → List String → List α → List α

/-- `random.sample(s, k)` on a duplicate-free population returns `k` distinct
elements of `s` (valid when `k ≤ |s|`). -/
def SampleValid (r : Rand) : Prop :=
  ∀ ctx s k, s.Nodup → k ≤ s.length →
    (r.sample ctx s k).length = k ∧ (r.sample ctx s k).Nodup ∧
      ∀ x ∈ r.sample ctx s k, x ∈ s

/-- `random.choice(s)` returns an element of `s` (valid when `s` is non-empty). -/
def ChoiceValid (r : Rand) : Prop :=
  ∀ ctx s, s ≠ [] → r.choice ctx s ∈ s

/-- `random.shuffle(l)` permutes `l`. -/
def ShuffleValid (r : Rand) : Prop :=
  ∀ (α : Type) (ctx : List String) (l : List α), (r.shuffle ctx l).Perm l

/-- `quizcore.Record`: `(kind, question, choices, answer)`. -/
structure Record where
  kind : String
  question : String
  choices : List String
  answer : String
deriving DecidableEq, Repr

/-- `quizcore.Fact`: kind label (`None` for facts outside multiple-choice
categories, modelled as `Option.none`), question texts and answer texts. -/
structure Fact where
  kind : Option String
  questions : List String
  answers : List String
deriving DecidableEq, Repr

/-- The value set of `fact.q_to_a` (`Fact.build`): the fact's distinct answer texts. -/
def Fact.answerSet (f : Fact) : List String := f.answers.dedup

/-- Keys of the `kinds` dictionary built by `_MCM.build`: the distinct fact-kind labels. -/
def kindKeys (facts : List Fact) : List (Option String) :=
  (facts.map Fact.kind).dedup

/-- The facts contributing to one kind group of `_MCM.build`. -/
def factsOfKind (facts : List Fact) (k : Option String) : List Fact :=
  facts.filter (fun f => f.kind == k)

/-- `set(kinds[kind]['answer'])` in `_MCM.build`: all distinct answers of a kind group. -/
def groupAnswers (fs : List Fact) : List String :=
  (fs.foldr (fun f acc => f.answerSet ++ acc) []).dedup

/-- `set(kinds[kind]['question'])` in `_MCM.build`: the distinct question texts
of a kind group (as a list, iteration order irrelevant to the claims). -/
def groupQuestions (fs : List Fact) : List String :=
  (fs.foldr (fun f acc => f.questions ++ acc) []).dedup

/-- `kinds[kind]['question'][question]`: the answers correct for `q`, merged over
every fact (of the group) in which `q` appears — each such fact contributes its
whole answer set, mirroring `fact.q_to_a[question]`. -/
def questionAnswers (fs : List Fact) (q : String) : List String :=
  ((fs.filter (fun f => decide (q ∈ f.questions))).foldr
    (fun f acc => f.answerSet ++ acc) []).dedup

/-- `answers.difference(kinds[kind]['question'][question])` in `_MCM.build`:
the distinct answers of the kind group that are not correct for `q`. -/
def wrongPool (fs : List Fact) (q : String) : List String :=
  (groupAnswers fs).filter (fun a => decide (a ∉ questionAnswers fs q))

/-- The record `_MCM.build` emits for one question: draw
`min(|wrong|, CHOICES)` wrong answers, one correct answer, shuffle. -/
def mcmRecord (choiceCount : Nat) (name : String) (r : Rand)
    (k : Option String) (q : String) (correct wrong : List String) : Record :=
  let ctx := [k.getD "", q]
  let sample := r.sample ctx wrong (min wrong.length choiceCount)
  let right := r.choice ctx correct
  ⟨name, q, r.shuffle ctx (sample ++ [right]), right⟩

/-- `_MCM.build`: group facts by kind label, emit one record per distinct
question of each group (`Matching`: 25 choices, `MultipleChoice`: 3). -/
def mcmBuild (choiceCount : Nat) (name : String) (r : Rand)
    (facts : List Fact) : List Record :=
  (kindKeys facts).flatMap (fun k =>
    (groupQuestions (factsOfKind facts k)).map (fun q =>
      mcmRecord choiceCount name r k q
        (questionAnswers (factsOfKind facts k) q)
        (wrongPool (factsOfKind facts k) q)))

/-- One `build()` call on a `_MCM` category instance: the freshly built records
are appended to the instance's accumulated `q_and_a` list (never replacing it). -/
def mcmBuildStep (choiceCount : Nat) (name : String) (r : Rand)
    (facts : List Fact) (qAndA : List Record) : List Record :=
  qAndA ++ mcmBuild choiceCount name r facts

/-- Number of records one `_MCM.build` run emits: one per distinct question per kind group. -/
def mcmQuestionCount (facts : List Fact) : Nat :=
  ((kindKeys facts).map
    (fun k => (groupQuestions (factsOfKind facts k)).length)).sum

/-- Keys of the `questions` dictionary in `TrueOrFalse.build`: the distinct
question texts merged over all facts (no kind-label partitioning). -/
def tofQuestions (facts : List Fact) : List String :=
  (facts.foldr (fun f acc => f.questions ++ acc) []).dedup

/-- `tuple(questions[question])[0]` under `len == 1`: the unique member of a
singleton answer set. -/
def theOnly (s : List String) : String :=
  s.headD ""

/-- The record `TrueOrFalse.build` emits for one valid question:
`random.sample(('True', 'False'), 2)` as the choice pair, the single recorded
answer value as the correct answer. -/
def tofRecord (r : Rand) (q right : String) : Record :=
  ⟨"True or False", q, r.sample [q] ["True", "False"] 2, right⟩

/-- The per-question loop of `TrueOrFalse.build`: emit a record when the merged
answer set of a question is a singleton, raise `RuntimeError` otherwise. -/
def tofGo (r : Rand) (facts : List Fact) : List String → Except String (List Record)
  | [] => .ok []
  | q :: qs =>
    if (questionAnswers facts q).length = 1 then
      match tofGo r facts qs with
      | .ok recs => .ok (tofRecord r q (theOnly (questionAnswers facts q)) :: recs)
      | .error e => .error e
    else .error "Question is invalid!"

/-- `TrueOrFalse.build`: merge every fact's question map, then run the
per-question loop. -/
def tofBuild (r : Rand) (facts : List Fact) : Except String (List Record) :=
  tofGo r facts (tofQuestions facts)

/-- `teach_me.Report` state: level name, optional parent (an index into the
session's report store), counters, review problems and the finalized flag.
The Python fields are name-mangled attributes mutated in place; here every
operation maps a report store to a new store or to the raised error, and a
raised error leaves the caller's store untouched exactly as the Python
methods raise before any mutation. -/
structure Report where
  level : String
  parent : Option Nat
  right : Nat
  wrong : Nat
  problems : List (Record × String)
  finalized : Bool
deriving DecidableEq, Repr

/-- The reports alive in one session, addressed by index. -/
abbrev ReportStore := List Report

/-- `Report.right_answer`. -/
def rightAnswer (store : ReportStore) (i : Nat) : Except String ReportStore :=
  match store[i]? with
  | none => .error "no such report"
  | some rep =>
    if rep.finalized then .error "Report is finalized!"
    else .ok (store.set i { rep with right := rep.right + 1 })

/-- `Report.wrong_answer`. -/
def wrongAnswer (store : ReportStore) (i : Nat) : Except String ReportStore :=
  match store[i]? with
  | none => .error "no such report"
  | some rep =>
    if rep.finalized then .error "Report is finalized!"
    else .ok (store.set i { rep with wrong := rep.wrong + 1 })

/-- `Report.review`. -/
def review (store : ReportStore) (i : Nat) (q : Record) (a : String) :
    Except String ReportStore :=
  match store[i]? with
  | none => .error "no such report"
  | some rep =>
    if rep.finalized then .error "Report is finalized!"
    else .ok (store.set i { rep with problems := rep.problems ++ [(q, a)] })

/-- `Report.finalize`: reject when this report is already finalized, flip the
flag, then add the counters and problems straight into the parent's fields
(the Python code mutates the parent's private attributes directly, with no
check of the parent's own state). -/
def finalize (store : ReportStore) (i : Nat) : Except String ReportStore :=
  match store[i]? with
  | none => .error "no such report"
  | some rep =>
    if rep.finalized then .error "Report is finalized!"
    else
      let store1 := store.set i { rep with finalized := true }
      match rep.parent with
      | none => .ok store1
      | some p =>
        match store1[p]? with
        | none => .error "no such report"
        | some pr =>
          .ok (store1.set p
            { pr with
              right := pr.right + rep.right,
              wrong := pr.wrong + rep.wrong,
              problems := pr.problems ++ rep.problems })

/-- The `Report.right` property. -/
def rightOf (store : ReportStore) (i : Nat) : Except String Nat :=
  match store[i]? with
  | none => .error "no such report"
  | some rep =>
    if rep.finalized then .ok rep.right else .error "Report is not finalized!"

/-- The `Report.wrong` property. -/
def wrongOf (store : ReportStore) (i : Nat) : Except String Nat :=
  match store[i]? with
  | none => .error "no such report"
  | some rep =>
    if rep.finalized then .ok rep.wrong else .error "Report is not finalized!"

/-- The `Report.total` property. -/
def totalOf (store : ReportStore) (i : Nat) : Except String Nat :=
  match store[i]? with
  | none => .error "no such report"
  | some rep =>
    if rep.finalized then .ok (rep.right + rep.wrong)
    else .error "Report is not finalized!"

/-- `teach_me.Question` session event state: the bound report (index into the
store), the record data and the answered flag. -/
structure SQuestion where
  report : Nat
  category : String
  question : String
  choices : List String
  right : String
  answered : Bool
deriving DecidableEq, Repr

/-- `self.__q_and_a` of a session question. -/
def SQuestion.record (q : SQuestion) : Record :=
  ⟨q.category, q.question, q.choices, q.right⟩

/-- Python tuple indexing `t[i]` for `int` arguments: a negative index counts
from the end; out-of-range raises `IndexError`. -/
def pyIndex (l : List String) (i : Int) : Option String :=
  let j := if i < 0 then i + l.length else i
  if 0 ≤ j ∧ j < l.length then l[j.toNat]? else none

/-- The body of `Question.answer` once an `int` argument has been resolved to
the chosen string: report right or wrong (recording a review entry when
wrong), then mark the question answered. -/
def answerStr (store : ReportStore) (q : SQuestion) (s : String) :
    Except String (ReportStore × SQuestion) :=
  if s = q.right then
    match rightAnswer store q.report with
    | .ok store1 => .ok (store1, { q with answered := true })
    | .error e => .error e
  else
    match wrongAnswer store q.report with
    | .ok store1 =>
      match review store1 q.report q.record s with
      | .ok store2 => .ok (store2, { q with answered := true })
      | .error e => .error e
    | .error e => .error e

/-- `Question.answer(index_or_string)`: reject a re-answer, resolve an `int`
argument through the choices tuple (raising `IndexError` when out of range),
then record the result.  The answered flag is set only after the report calls
succeed, exactly as the Python assignment is the method's last statement. -/
def SQuestion.answer (store : ReportStore) (q : SQuestion) (v : Int ⊕ String) :
    Except String (ReportStore × SQuestion) :=
  if q.answered then .error "Question has already been answered!"
  else
    match v with
    | .inl i =>
      match pyIndex q.choices i with
      | some s => answerStr store q s
      | none => .error "tuple index out of range"
    | .inr s => answerStr store q s

/-- The three category variants of the structural model (`quizcore._CATEGORY`). -/
inductive CategoryM where
  | matching (facts : List Fact)
  | multipleChoice (facts : List Fact)
  | trueOrFalse (facts : List Fact)
deriving DecidableEq, Repr

/-- `category.build()` as invoked by the session engine: `Matching` uses 25
choices, `MultipleChoice` 3, `TrueOrFalse` its own algorithm (which may raise). -/
def CategoryM.build (r : Rand) : CategoryM → Except String (List Record)
  | .matching facts => .ok (mcmBuild 25 "Matching" r facts)
  | .multipleChoice facts => .ok (mcmBuild 3 "Multiple Choice" r facts)
  | .trueOrFalse facts => tofBuild r facts

/-- `quizcore.Section` (validated). -/
structure SectionM where
  name : String
  categories : List CategoryM
deriving DecidableEq, Repr

/-- `quizcore.Chapter` (validated). -/
structure ChapterM where
  name : String
  sections : List SectionM
deriving DecidableEq, Repr

/-- `quizcore.UnitTest` (validated). -/
structure UnitTestM where
  name : String
  chapters : List ChapterM
deriving DecidableEq, Repr

/-- A fresh report at the start of a division (`Report.__init__`). -/
def newReport (level : String) : Report :=
  ⟨level, none, 0, 0, [], false⟩

/-- The session driver: for each `Question` event it picks the answer string
given to `Question.answer` (an index argument resolves to the same string). -/
abbrev Driver := Record → String

/-- The effect on the bound report of the driver answering one question
exactly once (`Question.answer` on an open report): a right answer increments
`right`; a wrong answer increments `wrong` and records a review entry. -/
def answerRecord (driver : Driver) (rep : Report) (rcd : Record) : Report :=
  if driver rcd = rcd.answer then { rep with right := rep.right + 1 }
  else { rep with wrong := rep.wrong + 1,
                  problems := rep.problems ++ [(rcd, driver rcd)] }

/-- The per-section category loop of `FAQ.__iter__`: build every category once
and extend the section-wide pool with its records. -/
def sectionPool (r : Rand) : List CategoryM → Except String (List Record)
  | [] => .ok []
  | c :: cs =>
    match c.build r with
    | .error e => .error e
    | .ok recs =>
      match sectionPool r cs with
      | .error e => .error e
      | .ok rest => .ok (recs ++ rest)

/-- One section of the session: build and pool the categories, shuffle the
pool, emit one answered `Question` event per pooled record against the fresh
section report, finalize it.  Returns the finalized section report and the
number of `Question` events emitted. -/
def runSection (r : Rand) (driver : Driver) (s : SectionM) :
    Except String (Report × Nat) :=
  match sectionPool r s.categories with
  | .error e => .error e
  | .ok qa =>
    let pool := r.shuffle [s.name] qa
    let rep := pool.foldl (answerRecord driver) (newReport "Section")
    .ok ({ rep with finalized := true }, pool.length)

/-- The roll-up a child's `finalize()` performs into its still-open parent:
counters add, problem lists extend. -/
def rollup (parent child : Report) : Report :=
  { parent with right := parent.right + child.right,
                wrong := parent.wrong + child.wrong,
                problems := parent.problems ++ child.problems }

/-- The section loop of one chapter, accumulating the roll-up into the chapter
report and the running count of `Question` events. -/
def runSections (r : Rand) (driver : Driver) :
    List SectionM → Report → Nat → Except String (Report × Nat)
  | [], rep, n => .ok (rep, n)
  | s :: ss, rep, n =>
    match runSection r driver s with
    | .error e => .error e
    | .ok (srep, sn) => runSections r driver ss (rollup rep srep) (n + sn)

/-- One chapter of the session: run its sections, then finalize the chapter report. -/
def runChapter (r : Rand) (driver : Driver) (c : ChapterM) :
    Except String (Report × Nat) :=
  match runSections r driver c.sections (newReport "Chapter") 0 with
  | .error e => .error e
  | .ok (rep, n) => .ok ({ rep with finalized := true }, n)

/-- The chapter loop of the session, accumulating into the unit-test report. -/
def runChapters (r : Rand) (driver : Driver) :
    List ChapterM → Report → Nat → Except String (Report × Nat)
  | [], rep, n => .ok (rep, n)
  | c :: cs, rep, n =>
    match runChapter r driver c with
    | .error e => .error e
    | .ok (crep, cn) => runChapters r driver cs (rollup rep crep) (n + cn)

/-- A complete session (`FAQ.__iter__`) under the consumption contract: the
driver answers every `Question` event exactly once before pulling the next
event.  Returns the finalized terminal (unit-test) report and the number of
`Question` events emitted. -/
def runUnitTest (r : Rand) (driver : Driver) (u : UnitTestM) :
    Except String (Report × Nat) :=
  match runChapters r driver u.chapters (newReport "UnitTest") 0 with
  | .error e => .error e
  | .ok (rep, n) => .ok ({ rep with finalized := true }, n)

/-!  Document-tree nodes (`testbank`) and the structural validation the
`quizcore` constructors perform on them.  The spec's name for the whole class
of validation failures is `StructureError`; the three variants are the raise
sites `'... is empty!'`, `ValueError(category.attr)` and
`'Answer is invalid!'` of `quizcore`. -/

/-- A child of a `fact` node: a `question` or `answer` leaf with its text. -/
inductive FNode where
  | question (text : String)
  | answer (text : String)
deriving DecidableEq, Repr

/-- A `fact` document node: its `type` attribute (present only under
`multiple_choice` categories) and its leaf children. -/
structure FactNode where
  attr : Option String
  children : List FNode
deriving Repr

/-- A `category` document node: its declared `type` attribute and its facts. -/
structure CategoryNode where
  attr : String
  children : List FactNode
deriving Repr

/-- A `section` document node. -/
structure SectionNode where
  attr : String
  children : List CategoryNode
deriving Repr

/-- A `chapter` document node. -/
structure ChapterNode where
  attr : String
  children : List SectionNode
deriving Repr

/-- The `testbank` document root. -/
structure RootNode where
  attr : String
  children : List ChapterNode
deriving Repr

/-- The structural-validation failures of model construction. -/
inductive StructureError where
  | emptyLevel (level : String)
  | badCategoryType (attr : String)
  | badTFAnswer (text : String)
deriving DecidableEq, Repr

/-- `quizcore.Answer.__init__`: inside a true-or-false category the text must
be exactly `True` or `False` (`if true_or_false and answer.text not in ...`). -/
def mkAnswer (tf : Bool) (text : String) : Except StructureError String :=
  if tf && !(text == "True" || text == "False") then .error (.badTFAnswer text)
  else .ok text

/-- The answer texts collected by `quizcore.Fact.__init__` while it walks the
fact's children, validating each `Answer` as it is built. -/
def factAnswers (tf : Bool) : List FNode → Except StructureError (List String)
  | [] => .ok []
  | .question _ :: rest => factAnswers tf rest
  | .answer t :: rest =>
    match mkAnswer tf t with
    | .error e => .error e
    | .ok a =>
      match factAnswers tf rest with
      | .error e => .error e
      | .ok l => .ok (a :: l)

/-- The question texts collected by `quizcore.Fact.__init__`. -/
def factQuestions : List FNode → List String
  | [] => []
  | .question t :: rest => t :: factQuestions rest
  | .answer _ :: rest => factQuestions rest

/-- `quizcore.Fact.__init__`: collect and validate the children, then reject a
fact with no answers. -/
def mkFact (tf : Bool) (node : FactNode) : Except StructureError Fact :=
  match factAnswers tf node.children with
  | .error e => .error e
  | .ok l =>
    if l = [] then .error (.emptyLevel "Fact")
    else .ok ⟨node.attr, factQuestions node.children, l⟩

/-- The `list(map(...))` pattern every constructor level uses: build the
children in order, propagating the first raised error. -/
def mapExcept {α β : Type} (f : α → Except StructureError β) :
    List α → Except StructureError (List β)
  | [] => .ok []
  | x :: rest =>
    match f x with
    | .error e => .error e
    | .ok y =>
      match mapExcept f rest with
      | .error e => .error e
      | .ok ys => .ok (y :: ys)

/-- The fact list a `_Category.__init__` builds (each fact validated in order). -/
def mkFacts (tf : Bool) (l : List FactNode) : Except StructureError (List Fact) :=
  mapExcept (mkFact tf) l

/-- The shared shape of every constructor level: build the children in order,
then reject an empty collection (`list(map(...))` followed by
`if not ...: raise RuntimeError('... is empty!')`). -/
def buildLevel {α β γ : Type} [DecidableEq β] (f : α → Except StructureError β)
    (l : List α) (err : StructureError) (build : List β → γ) :
    Except StructureError γ :=
  match mapExcept f l with
  | .error e => .error e
  | .ok ys => if ys = [] then .error err else .ok (build ys)

/-- `_Category.__init__` (shared by the three kinds): build and validate the
fact list, rejecting an empty category. -/
def mkCategoryInit (tf : Bool) (ctor : List Fact → CategoryM)
    (children : List FactNode) : Except StructureError CategoryM :=
  buildLevel (mkFact tf) children (.emptyLevel "Category") ctor

/-- `Section.get_category`: dispatch on the declared type, raising
`ValueError(category.attr)` on an unrecognized one. -/
def mkCategory (node : CategoryNode) : Except StructureError CategoryM :=
  if node.attr = "matching" then
    mkCategoryInit false .matching node.children
  else if node.attr = "multiple_choice" then
    mkCategoryInit false .multipleChoice node.children
  else if node.attr = "true_or_false" then
    mkCategoryInit true .trueOrFalse node.children
  else .error (.badCategoryType node.attr)

/-- `quizcore.Section.__init__`. -/
def mkSection (node : SectionNode) : Except StructureError SectionM :=
  buildLevel mkCategory node.children (.emptyLevel "Section")
    (SectionM.mk node.attr)

/-- `quizcore.Chapter.__init__`. -/
def mkChapter (node : ChapterNode) : Except StructureError ChapterM :=
  buildLevel mkSection node.children (.emptyLevel "Chapter")
    (ChapterM.mk node.attr)

/-- `quizcore.UnitTest.__init__`: construction of the whole structural model. -/
def mkUnitTest (root : RootNode) : Except StructureError UnitTestM :=
  buildLevel mkChapter root.children (.emptyLevel "UnitTest")
    (UnitTestM.mk root.attr)

/-- Whether a construction attempt raised. -/
def isError {ε α : Type} : Except ε α → Bool
  | .error _ => true
  | .ok _ => false

/-- A `fact` leaf that violates the true-or-false answer rule. -/
def answerViolation (tf : Bool) : FNode → Bool
  | .answer t => tf && !(t == "True" || t == "False")
  | .question _ => false

/-- Whether a leaf is an `answer` node. -/
def isAnswerNode : FNode → Bool
  | .answer _ => true
  | .question _ => false

/-- A `fact` node the structural model must reject: an invalid true-or-false
answer text or an empty answer list. -/
def factViolation (tf : Bool) (node : FactNode) : Bool :=
  node.children.any (answerViolation tf) || !(node.children.any isAnswerNode)

/-- A `category` node the structural model must reject: an unrecognized
declared type, a rejected fact, or an empty fact list. -/
def categoryViolation (node : CategoryNode) : Bool :=
  if node.attr = "matching" ∨ node.attr = "multiple_choice"
      ∨ node.attr = "true_or_false" then
    node.children.any (factViolation (node.attr = "true_or_false")) ||
      node.children.isEmpty
  else true

/-- A `section` node the structural model must reject. -/
def sectionViolation (node : SectionNode) : Bool :=
  node.children.any categoryViolation || node.children.isEmpty

/-- A `chapter` node the structural model must reject. -/
def chapterViolation (node : ChapterNode) : Bool :=
  node.children.any sectionViolation || node.children.isEmpty

/-- A document root the structural model must reject. -/
def rootViolation (root : RootNode) : Bool :=
  root.children.any chapterViolation || root.children.isEmpty

/-- One concrete valid random oracle (used to instantiate the theorems at
concrete inputs): sampling takes the first elements in sorted order, choice
takes the least element, shuffling leaves the list as it is. -/
def wRand : Rand where
  sample := fun _ s k => s.take k
  choice := fun _ s => s.headD ""
  shuffle := fun _ l => l

end QuizMe

namespace QuizMe

theorem wRand_sample_valid : SampleValid wRand := by
  intro ctx s k hnd hk
  refine ⟨?_, ?_, ?_⟩
  · simp only [wRand, List.length_take]
    omega
  · exact hnd.sublist (List.take_sublist _ _)
  · intro x hx
    exact List.take_subset _ _ hx

theorem wRand_choice_valid : ChoiceValid wRand := by
  intro ctx s hs
  rcases s with _ | ⟨a, t⟩
  · exact absurd rfl hs
  · show (a :: t).headD "" ∈ a :: t
    exact List.mem_cons_self a t

theorem wRand_shuffle_valid : ShuffleValid wRand :=
  fun _ _ l => List.Perm.refl l

theorem mem_foldr_questions (fs : List Fact) (q : String) :
    q ∈ fs.foldr (fun f acc => f.questions ++ acc) [] ↔
      ∃ f ∈ fs, q ∈ f.questions := by
  induction fs with
  | nil => simp
  | cons f fs ih => simp [ih]

theorem mem_foldr_answers (fs : List Fact) (x : String) :
    x ∈ fs.foldr (fun f acc => f.answerSet ++ acc) [] ↔
      ∃ f ∈ fs, x ∈ f.answerSet := by
  induction fs with
  | nil => simp
  | cons f fs ih => simp [ih]

theorem mem_groupQuestions (fs : List Fact) (q : String) :
    q ∈ groupQuestions fs ↔ ∃ f ∈ fs, q ∈ f.questions := by
  rw [groupQuestions, List.mem_dedup]
  exact mem_foldr_questions fs q

theorem mem_questionAnswers (fs : List Fact) (q x : String) :
    x ∈ questionAnswers fs q ↔ ∃ f ∈ fs, q ∈ f.questions ∧ x ∈ f.answerSet := by
  rw [questionAnswers, List.mem_dedup, mem_foldr_answers]
  simp only [List.mem_filter, decide_eq_true_iff]
  tauto

theorem mem_wrongPool (fs : List Fact) (q x : String) :
    x ∈ wrongPool fs q ↔ x ∈ groupAnswers fs ∧ x ∉ questionAnswers fs q := by
  rw [wrongPool, List.mem_filter]
  simp

theorem wrongPool_nodup (fs : List Fact) (q : String) : (wrongPool fs q).Nodup :=
  (List.nodup_dedup _).filter _

theorem questionAnswers_ne_nil (fs : List Fact) (q : String)
    (hne : ∀ f ∈ fs, f.answers ≠ []) (hq : q ∈ groupQuestions fs) :
    questionAnswers fs q ≠ [] := by
  rw [mem_groupQuestions] at hq
  obtain ⟨f, hf, hqf⟩ := hq
  obtain ⟨a, ha⟩ := List.exists_mem_of_ne_nil f.answers (hne f hf)
  exact List.ne_nil_of_mem ((mem_questionAnswers fs q a).mpr
    ⟨f, hf, hqf, by simp [Fact.answerSet, ha]⟩)

theorem mcmRecord_spec (choiceCount : Nat) (name : String) (r : Rand)
    (k : Option String) (q : String) (correct wrong : List String)
    (hs : SampleValid r) (hc : ChoiceValid r) (hsh : ShuffleValid r)
    (hwnd : wrong.Nodup) (hcorr : correct ≠ [])
    (hdisj : ∀ x ∈ correct, x ∉ wrong) :
    (mcmRecord choiceCount name r k q correct wrong).answer ∈ correct ∧
    (mcmRecord choiceCount name r k q correct wrong).choices.count
        (mcmRecord choiceCount name r k q correct wrong).answer = 1 ∧
    (mcmRecord choiceCount name r k q correct wrong).choices.length =
      min wrong.length choiceCount + 1 ∧
    ∀ c ∈ (mcmRecord choiceCount name r k q correct wrong).choices,
      c ≠ (mcmRecord choiceCount name r k q correct wrong).answer →
        c ∈ wrong := by
  obtain ⟨hlen, hnodup, hmem⟩ :=
    hs [k.getD "", q] wrong (min wrong.length choiceCount) hwnd
      (Nat.min_le_left _ _)
  have hright : r.choice [k.getD "", q] correct ∈ correct := hc _ _ hcorr
  have hperm := hsh String [k.getD "", q]
    (r.sample [k.getD "", q] wrong (min wrong.length choiceCount) ++
      [r.choice [k.getD "", q] correct])
  simp only [mcmRecord]
  refine ⟨hright, ?_, ?_, ?_⟩
  · rw [hperm.count_eq, List.count_append]
    have hnot : r.choice [k.getD "", q] correct ∉
        r.sample [k.getD "", q] wrong (min wrong.length choiceCount) :=
      fun hin => hdisj _ hright (hmem _ hin)
    rw [List.count_eq_zero.mpr hnot]
    simp
  · rw [hperm.length_eq, List.length_append, hlen]
    simp
  · intro c hcmem hcne
    rcases List.mem_append.mp (hperm.mem_iff.mp hcmem) with h | h
    · exact hmem _ h
    · simp only [List.mem_singleton] at h
      exact absurd h hcne

/-- **C1**: every record emitted by a Matching (25 choices) or MultipleChoice
(3 choices) build belongs to a fact-kind group; its correct answer is one of
the question's correct answers, appears in the choices exactly once, the
choices have length `min(poolSize, C) + 1` where `poolSize` is the number of
distinct answers of the kind group that are not correct answers of the
question, and every other choice comes from that wrong pool (so answers of
facts with a different kind label never appear). -/
theorem mcm_build_choices_sound (choiceCount : Nat) (name : String) (r : Rand)
    (facts : List Fact)
    (hs : SampleValid r) (hc : ChoiceValid r) (hsh : ShuffleValid r)
    (hne : ∀ f ∈ facts, f.answers ≠ []) :
    ∀ rcd ∈ mcmBuild choiceCount name r facts,
      ∃ k ∈ kindKeys facts,
        rcd.question ∈ groupQuestions (factsOfKind facts k) ∧
        rcd.answer ∈ questionAnswers (factsOfKind facts k) rcd.question ∧
        rcd.choices.count rcd.answer = 1 ∧
        rcd.choices.length =
          min (wrongPool (factsOfKind facts k) rcd.question).length
            choiceCount + 1 ∧
        ∀ c ∈ rcd.choices, c ≠ rcd.answer →
          c ∈ wrongPool (factsOfKind facts k) rcd.question := by
  intro rcd hmem
  rw [mcmBuild] at hmem
  simp only [List.mem_flatMap, List.mem_map] at hmem
  obtain ⟨k, hk, q, hq, rfl⟩ := hmem
  refine ⟨k, hk, ?_⟩
  have hnem : questionAnswers (factsOfKind facts k) q ≠ [] :=
    questionAnswers_ne_nil _ q
      (fun f hf => hne f (List.mem_of_mem_filter hf)) hq
  have hdisj : ∀ x ∈ questionAnswers (factsOfKind facts k) q,
      x ∉ wrongPool (factsOfKind facts k) q :=
    fun x hx hxw => ((mem_wrongPool _ _ _).mp hxw).2 hx
  obtain ⟨ha, hcount, hlen, hsub⟩ :=
    mcmRecord_spec choiceCount name r k q _ _ hs hc hsh
      (wrongPool_nodup _ _) hnem hdisj
  exact ⟨hq, ha, hcount, hlen, hsub⟩

/-- C1 witness: the spec's own multiple-choice scenario (kind label `colors`,
facts `Color of sky → Blue` and `Color of grass → Green`), instantiated at
the record built for `Color of sky` under the concrete oracle. -/
theorem mcm_build_choices_sound_witness :
    ∃ k ∈ kindKeys
        [Fact.mk (some "colors") ["Color of sky"] ["Blue"],
         Fact.mk (some "colors") ["Color of grass"] ["Green"]],
      "Color of sky" ∈ groupQuestions (factsOfKind
        [Fact.mk (some "colors") ["Color of sky"] ["Blue"],
         Fact.mk (some "colors") ["Color of grass"] ["Green"]] k) ∧
      "Blue" ∈ questionAnswers (factsOfKind
        [Fact.mk (some "colors") ["Color of sky"] ["Blue"],
         Fact.mk (some "colors") ["Color of grass"] ["Green"]] k)
        "Color of sky" ∧
      (["Green", "Blue"] : List String).count "Blue" = 1 ∧
      (["Green", "Blue"] : List String).length =
        min (wrongPool (factsOfKind
          [Fact.mk (some "colors") ["Color of sky"] ["Blue"],
           Fact.mk (some "colors") ["Color of grass"] ["Green"]] k)
          "Color of sky").length 3 + 1 ∧
      ∀ c ∈ (["Green", "Blue"] : List String), c ≠ "Blue" →
        c ∈ wrongPool (factsOfKind
          [Fact.mk (some "colors") ["Color of sky"] ["Blue"],
           Fact.mk (some "colors") ["Color of grass"] ["Green"]] k)
          "Color of sky" :=
  mcm_build_choices_sound 3 "Multiple Choice" wRand
    [Fact.mk (some "colors") ["Color of sky"] ["Blue"],
     Fact.mk (some "colors") ["Color of grass"] ["Green"]]
    wRand_sample_valid wRand_choice_valid wRand_shuffle_valid (by decide)
    (Record.mk "Multiple Choice" "Color of sky" ["Green", "Blue"] "Blue")
    (by decide)

theorem mcmBuild_length (choiceCount : Nat) (name : String) (r : Rand)
    (facts : List Fact) :
    (mcmBuild choiceCount name r facts).length = mcmQuestionCount facts := by
  simp [mcmBuild, mcmQuestionCount, Function.comp_def]

/-- **C9**: a second `build()` call on the same category instance appends a
complete fresh batch to `q_and_a` instead of replacing it: the list then holds
the first run's records followed by the second run's, two records per
distinct question of each kind group. -/
theorem mcm_build_twice_appends (choiceCount : Nat) (name : String)
    (r1 r2 : Rand) (facts : List Fact) :
    mcmBuildStep choiceCount name r2 facts
        (mcmBuildStep choiceCount name r1 facts []) =
      mcmBuild choiceCount name r1 facts ++ mcmBuild choiceCount name r2 facts ∧
    (mcmBuildStep choiceCount name r2 facts
        (mcmBuildStep choiceCount name r1 facts [])).length =
      2 * mcmQuestionCount facts ∧
    (mcmBuild choiceCount name r1 facts).length = mcmQuestionCount facts := by
  refine ⟨by simp [mcmBuildStep], ?_, mcmBuild_length _ _ _ _⟩
  simp [mcmBuildStep, mcmBuild_length]
  omega

theorem tofGo_ok_mem (r : Rand) (facts : List Fact) (qs : List String)
    (recs : List Record) (h : tofGo r facts qs = .ok recs) :
    ∀ rcd ∈ recs, ∃ q ∈ qs, (questionAnswers facts q).length = 1 ∧
      rcd = tofRecord r q (theOnly (questionAnswers facts q)) := by
  induction qs generalizing recs with
  | nil =>
    simp only [tofGo] at h
    cases h
    simp
  | cons q qs ih =>
    by_cases hq : (questionAnswers facts q).length = 1
    · simp only [tofGo, if_pos hq] at h
      cases hgo : tofGo r facts qs with
      | error e => rw [hgo] at h; cases h
      | ok rest =>
        rw [hgo] at h
        cases h
        intro rcd hrcd
        rcases List.mem_cons.mp hrcd with rfl | hrcd2
        · exact ⟨q, List.mem_cons_self _ _, hq, rfl⟩
        · obtain ⟨p, hp, h1, h2⟩ := ih rest hgo rcd hrcd2
          exact ⟨p, List.mem_cons_of_mem _ hp, h1, h2⟩
    · simp only [tofGo, if_neg hq] at h
      cases h

theorem questionAnswers_tf (facts : List Fact) (q : String)
    (hval : ∀ f ∈ facts, ∀ a ∈ f.answers, a = "True" ∨ a = "False") :
    ∀ x ∈ questionAnswers facts q, x = "True" ∨ x = "False" := by
  intro x hx
  obtain ⟨f, hf, _, hxa⟩ := (mem_questionAnswers facts q x).mp hx
  rw [Fact.answerSet, List.mem_dedup] at hxa
  exact hval f hf x hxa

theorem length_one_eq_singleton (l : List String) (h : l.length = 1) :
    l = [theOnly l] := by
  cases l with
  | nil => cases h
  | cons a t =>
    cases t with
    | nil => rfl
    | cons b t2 => simp at h

theorem tofRecord_choices_perm (r : Rand) (hs : SampleValid r)
    (q right : String) :
    (tofRecord r q right).choices.Perm ["True", "False"] := by
  obtain ⟨hlen, hnodup, hmem⟩ :=
    hs [q] ["True", "False"] 2 (by decide) (by decide)
  have hsub : List.Subperm (r.sample [q] ["True", "False"] 2)
      ["True", "False"] :=
    hnodup.subperm hmem
  exact hsub.perm_of_length_le (by rw [hlen]; decide)

/-- **C5**: when a TrueOrFalse build succeeds, every emitted record's choices
are a permutation of the pair `True`/`False`, exactly one of the two choices
equals the stored correct answer, and that correct answer is the single
distinct answer value recorded for the question across all facts. -/
theorem tof_build_sound (r : Rand) (facts : List Fact) (recs : List Record)
    (hs : SampleValid r)
    (hval : ∀ f ∈ facts, ∀ a ∈ f.answers, a = "True" ∨ a = "False")
    (hok : tofBuild r facts = .ok recs) :
    ∀ rcd ∈ recs,
      rcd.choices.Perm ["True", "False"] ∧
      rcd.choices.count rcd.answer = 1 ∧
      questionAnswers facts rcd.question = [rcd.answer] := by
  intro rcd hrcd
  obtain ⟨q, hq, hlen1, rfl⟩ := tofGo_ok_mem r facts _ recs hok rcd hrcd
  have hsingle : questionAnswers facts q = [theOnly (questionAnswers facts q)] :=
    length_one_eq_singleton _ hlen1
  have hperm := tofRecord_choices_perm r hs q (theOnly (questionAnswers facts q))
  refine ⟨hperm, ?_, hsingle⟩
  have hmem : theOnly (questionAnswers facts q) ∈ questionAnswers facts q := by
    rw [hsingle]
    exact List.mem_singleton_self _
  have htf := questionAnswers_tf facts q hval _ hmem
  show (tofRecord r q (theOnly (questionAnswers facts q))).choices.count
    (theOnly (questionAnswers facts q)) = 1
  rw [hperm.count_eq]
  rcases htf with h | h <;> rw [h] <;> decide

/-- C5 witness: the spec's end-to-end scenario (one fact,
question `Sky is blue`, answer `True`) instantiated at its single record. -/
theorem tof_build_sound_witness :
    (["True", "False"] : List String).Perm ["True", "False"] ∧
    (["True", "False"] : List String).count "True" = 1 ∧
    questionAnswers [Fact.mk none ["Sky is blue"] ["True"]] "Sky is blue" =
      ["True"] :=
  tof_build_sound wRand [Fact.mk none ["Sky is blue"] ["True"]]
    [Record.mk "True or False" "Sky is blue" ["True", "False"] "True"]
    wRand_sample_valid (by decide) (by rfl)
    (Record.mk "True or False" "Sky is blue" ["True", "False"] "True")
    (by decide)

theorem tofGo_error_of_bad (r : Rand) (facts : List Fact) (qs : List String)
    (q : String) (hq : q ∈ qs)
    (hcard : (questionAnswers facts q).length ≠ 1) :
    ∃ e, tofGo r facts qs = .error e := by
  induction qs with
  | nil => cases hq
  | cons p ps ih =>
    by_cases hp : (questionAnswers facts p).length = 1
    · rcases List.mem_cons.mp hq with rfl | hq2
      · exact absurd hp hcard
      · obtain ⟨e, he⟩ := ih hq2
        exact ⟨e, by simp [tofGo, hp, he]⟩
    · exact ⟨"Question is invalid!", by simp [tofGo, hp]⟩

/-- **C6**: a TrueOrFalse build aborts with the `RuntimeError`-class failure
`Question is invalid!` as soon as some question's merged answer set holds more
than one distinct value (witnessed below by a category whose single question
maps to both `True` and `False`, which fails before any record is emitted). -/
theorem tof_build_fails_on_ambiguous (r : Rand) (facts : List Fact)
    (h : ∃ q ∈ tofQuestions facts, 1 < (questionAnswers facts q).length) :
    ∃ e, tofBuild r facts = .error e := by
  obtain ⟨q, hq, hgt⟩ := h
  exact tofGo_error_of_bad r facts _ q hq (by omega)

/-- C6 witness: the spec's corruption scenario — the same question text mapped
to `True` by one fact and `False` by another. -/
theorem tof_build_fails_on_ambiguous_witness :
    (∃ q ∈ tofQuestions [Fact.mk none ["Sky is blue"] ["True"],
                         Fact.mk none ["Sky is blue"] ["False"]],
      1 < (questionAnswers [Fact.mk none ["Sky is blue"] ["True"],
                            Fact.mk none ["Sky is blue"] ["False"]] q).length) ∧
    (∃ e, tofBuild wRand [Fact.mk none ["Sky is blue"] ["True"],
                          Fact.mk none ["Sky is blue"] ["False"]] = .error e) :=
  ⟨by decide, tof_build_fails_on_ambiguous wRand
    [Fact.mk none ["Sky is blue"] ["True"],
     Fact.mk none ["Sky is blue"] ["False"]] (by decide)⟩

/-- **C2 counterexample**: with a finalized parent (index 0) and an open child
(index 1), the child's `finalize()` does not fail — it returns successfully
and adds the child's counters into the already-finalized parent (the parent's
right count changes from 0 to 1), refuting both halves of the claim. -/
theorem finalize_out_of_order_cex :
    finalize [Report.mk "Chapter" none 0 0 [] true,
              Report.mk "Section" (some 0) 1 0 [] false] 1 =
      .ok [Report.mk "Chapter" none 1 0 [] true,
           Report.mk "Section" (some 0) 1 0 [] true] := by rfl

/-- **C2 (amended)**: finalizing a not-yet-finalized child whose parent is
already finalized succeeds with no error, and the finalized parent's counters
and problem list are mutated by the child's roll-up (`finalize` guards only
the child's own flag and writes the parent's private fields directly). -/
theorem finalize_out_of_order (store : ReportStore) (i p : Nat)
    (rep pr : Report)
    (hi : store[i]? = some rep)
    (hfin : rep.finalized = false)
    (hp : rep.parent = some p)
    (hpi : (store.set i { rep with finalized := true })[p]? = some pr)
    (_hpfin : pr.finalized = true) :
    finalize store i =
      .ok ((store.set i { rep with finalized := true }).set p
        { pr with right := pr.right + rep.right,
                  wrong := pr.wrong + rep.wrong,
                  problems := pr.problems ++ rep.problems }) := by
  rw [hp] at hpi
  simp [finalize, hi, hfin, hp, hpi]

/-- C2 witness: a finalized chapter report receiving an open section report's
counts and problems through an out-of-order `finalize()`. -/
theorem finalize_out_of_order_witness :
    finalize [Report.mk "Chapter" none 3 4 [] true,
              Report.mk "Section" (some 0) 2 1
                [(Record.mk "Matching" "q" ["a", "b"] "a", "b")] false] 1 =
      .ok [Report.mk "Chapter" none 5 5
             [(Record.mk "Matching" "q" ["a", "b"] "a", "b")] true,
           Report.mk "Section" (some 0) 2 1
             [(Record.mk "Matching" "q" ["a", "b"] "a", "b")] true] :=
  finalize_out_of_order
    [Report.mk "Chapter" none 3 4 [] true,
     Report.mk "Section" (some 0) 2 1
       [(Record.mk "Matching" "q" ["a", "b"] "a", "b")] false] 1 0
    (Report.mk "Section" (some 0) 2 1
      [(Record.mk "Matching" "q" ["a", "b"] "a", "b")] false)
    (Report.mk "Chapter" none 3 4 [] true)
    (by rfl) (by rfl) (by rfl) (by rfl) (by rfl)

/-- **C7**: `finalize()` on an already-finalized report raises
`Report is finalized!`, and reading `right`/`wrong`/`total` on a report that
is not yet finalized raises `Report is not finalized!`.  Both guards fire
before any mutation, so the failed call leaves the report's counters, problem
list and flag untouched (the operations are store-to-store functions and an
error result carries no modified store). -/
theorem report_guard_errors (store : ReportStore) (i : Nat) (rep : Report)
    (hi : store[i]? = some rep) :
    (rep.finalized = true → finalize store i = .error "Report is finalized!") ∧
    (rep.finalized = false →
      rightOf store i = .error "Report is not finalized!" ∧
      wrongOf store i = .error "Report is not finalized!" ∧
      totalOf store i = .error "Report is not finalized!") := by
  constructor
  · intro hf
    simp [finalize, hi, hf]
  · intro hf
    refine ⟨?_, ?_, ?_⟩ <;> simp [rightOf, wrongOf, totalOf, hi, hf]

/-- C7 witness: a store holding a finalized report (index 0) and an open one
(index 1), hitting both guards. -/
theorem report_guard_errors_witness :
    (finalize [Report.mk "Section" none 1 2 [] true,
               Report.mk "Section" none 1 2 [] false] 0 =
      .error "Report is finalized!") ∧
    (rightOf [Report.mk "Section" none 1 2 [] true,
              Report.mk "Section" none 1 2 [] false] 1 =
        .error "Report is not finalized!" ∧
      wrongOf [Report.mk "Section" none 1 2 [] true,
               Report.mk "Section" none 1 2 [] false] 1 =
        .error "Report is not finalized!" ∧
      totalOf [Report.mk "Section" none 1 2 [] true,
               Report.mk "Section" none 1 2 [] false] 1 =
        .error "Report is not finalized!") :=
  ⟨(report_guard_errors _ 0 _ (by rfl)).1 (by rfl),
   (report_guard_errors _ 1 _ (by rfl)).2 (by rfl)⟩

/-- **C8**: answering an unanswered question through an index that selects the
correct-answer text produces exactly the same result as answering with the
correct-answer string itself: the bound report's right count grows by one,
its wrong count and problem list are untouched, and the question is marked
answered. -/
theorem question_answer_index_matches_string (store : ReportStore)
    (q : SQuestion) (i : Int) (rep : Report)
    (hans : q.answered = false)
    (hidx : pyIndex q.choices i = some q.right)
    (hrep : store[q.report]? = some rep)
    (hfin : rep.finalized = false) :
    SQuestion.answer store q (.inl i) =
      .ok (store.set q.report { rep with right := rep.right + 1 },
        { q with answered := true }) ∧
    SQuestion.answer store q (.inr q.right) =
      .ok (store.set q.report { rep with right := rep.right + 1 },
        { q with answered := true }) := by
  have h1 : answerStr store q q.right =
      .ok (store.set q.report { rep with right := rep.right + 1 },
        { q with answered := true }) := by
    simp [answerStr, rightAnswer, hrep, hfin]
  constructor
  · simp [SQuestion.answer, hans, hidx, h1]
  · simp [SQuestion.answer, hans, h1]

/-- C8 witness: index `0` into choices `[A, B]` selects the correct answer
`A`; both calls yield the same incremented report. -/
theorem question_answer_index_matches_string_witness :
    (SQuestion.answer [Report.mk "Section" none 0 0 [] false]
        (SQuestion.mk 0 "Multiple Choice" "Q" ["A", "B"] "A" false) (.inl 0) =
      .ok ([Report.mk "Section" none 1 0 [] false],
        SQuestion.mk 0 "Multiple Choice" "Q" ["A", "B"] "A" true)) ∧
    (SQuestion.answer [Report.mk "Section" none 0 0 [] false]
        (SQuestion.mk 0 "Multiple Choice" "Q" ["A", "B"] "A" false)
        (.inr "A") =
      .ok ([Report.mk "Section" none 1 0 [] false],
        SQuestion.mk 0 "Multiple Choice" "Q" ["A", "B"] "A" true)) :=
  question_answer_index_matches_string [Report.mk "Section" none 0 0 [] false]
    (SQuestion.mk 0 "Multiple Choice" "Q" ["A", "B"] "A" false) 0
    (Report.mk "Section" none 0 0 [] false)
    (by rfl) (by rfl) (by rfl) (by rfl)

theorem getElem?_set_self (l : ReportStore) (i : Nat) (a b : Report)
    (h : l[i]? = some a) : (l.set i b)[i]? = some b := by
  induction l generalizing i with
  | nil => simp at h
  | cons x xs ih =>
    cases i with
    | zero => simp
    | succ n =>
      simp only [List.set_cons_succ, List.getElem?_cons_succ] at h ⊢
      exact ih n h

/-- **C10**: answering an unanswered question with an integer index outside
the bounds of the choices tuple raises `IndexError` before any state change:
the question stays unanswered and the report untouched, so a subsequent
in-range `answer()` call on the very same state still succeeds (no re-answer
error). -/
theorem question_answer_oob_atomic (store : ReportStore) (q : SQuestion)
    (i j : Int) (c : String) (rep : Report)
    (hans : q.answered = false)
    (hoob : pyIndex q.choices i = none)
    (hj : pyIndex q.choices j = some c)
    (hrep : store[q.report]? = some rep)
    (hfin : rep.finalized = false) :
    SQuestion.answer store q (.inl i) = .error "tuple index out of range" ∧
    ∃ res, SQuestion.answer store q (.inl j) = .ok res := by
  constructor
  · simp [SQuestion.answer, hans, hoob]
  · by_cases hc : c = q.right
    · exact ⟨(store.set q.report { rep with right := rep.right + 1 },
        { q with answered := true }), by
        simp [SQuestion.answer, hans, hj, answerStr, hc, rightAnswer,
          hrep, hfin]⟩
    · refine ⟨((store.set q.report { rep with wrong := rep.wrong + 1 }).set
          q.report
          { rep with wrong := rep.wrong + 1,
                     problems := rep.problems ++ [(q.record, c)] },
        { q with answered := true }), ?_⟩
      have h2 : wrongAnswer store q.report =
          .ok (store.set q.report { rep with wrong := rep.wrong + 1 }) := by
        simp [wrongAnswer, hrep, hfin]
      have h3 : (store.set q.report
          { rep with wrong := rep.wrong + 1 })[q.report]? =
          some { rep with wrong := rep.wrong + 1 } :=
        getElem?_set_self store q.report rep _ hrep
      have h4 : review (store.set q.report { rep with wrong := rep.wrong + 1 })
          q.report q.record c =
          .ok ((store.set q.report { rep with wrong := rep.wrong + 1 }).set
            q.report
            { rep with wrong := rep.wrong + 1,
                       problems := rep.problems ++ [(q.record, c)] }) := by
        simp only [review]
        rw [h3]
        simp [hfin]
      simp [SQuestion.answer, hans, hj, answerStr, hc, h2, h4]

/-- C10 witness: index `5` on the two-element choices tuple raises, after
which the same question still accepts the in-range index `-1` (Python's
from-the-end indexing, resolving to choice `B`). -/
theorem question_answer_oob_atomic_witness :
    (SQuestion.answer [Report.mk "Section" none 0 0 [] false]
        (SQuestion.mk 0 "Multiple Choice" "Q" ["A", "B"] "A" false) (.inl 5) =
      .error "tuple index out of range") ∧
    (∃ res, SQuestion.answer [Report.mk "Section" none 0 0 [] false]
        (SQuestion.mk 0 "Multiple Choice" "Q" ["A", "B"] "A" false)
        (.inl (-1)) = .ok res) :=
  question_answer_oob_atomic [Report.mk "Section" none 0 0 [] false]
    (SQuestion.mk 0 "Multiple Choice" "Q" ["A", "B"] "A" false) 5 (-1) "B"
    (Report.mk "Section" none 0 0 [] false)
    (by rfl) (by rfl) (by rfl) (by rfl) (by rfl)

theorem foldl_answerRecord_total (driver : Driver) (pool : List Record)
    (rep : Report) :
    (pool.foldl (answerRecord driver) rep).right +
      (pool.foldl (answerRecord driver) rep).wrong =
      rep.right + rep.wrong + pool.length := by
  induction pool generalizing rep with
  | nil => simp
  | cons rcd rest ih =>
    rw [List.foldl_cons, ih]
    by_cases h : driver rcd = rcd.answer <;> simp [answerRecord, h] <;> omega

theorem runSection_total (r : Rand) (driver : Driver) (s : SectionM)
    (srep : Report) (sn : Nat)
    (h : runSection r driver s = .ok (srep, sn)) :
    srep.right + srep.wrong = sn := by
  rw [runSection] at h
  cases hp : sectionPool r s.categories with
  | error e => rw [hp] at h; cases h
  | ok qa =>
    rw [hp] at h
    simp only [Except.ok.injEq, Prod.mk.injEq] at h
    obtain ⟨h1, h2⟩ := h
    subst h1
    subst h2
    have := foldl_answerRecord_total driver (r.shuffle [s.name] qa)
      (newReport "Section")
    simpa [newReport] using this

theorem runSections_total (r : Rand) (driver : Driver) (ss : List SectionM) :
    ∀ (rep : Report) (n : Nat) (rep' : Report) (n' : Nat),
      runSections r driver ss rep n = .ok (rep', n') →
      rep'.right + rep'.wrong + n = rep.right + rep.wrong + n' := by
  induction ss with
  | nil =>
    intro rep n rep' n' h
    simp only [runSections, Except.ok.injEq, Prod.mk.injEq] at h
    obtain ⟨rfl, rfl⟩ := h
    omega
  | cons s ss ih =>
    intro rep n rep' n' h
    rw [runSections] at h
    cases hs : runSection r driver s with
    | error e => rw [hs] at h; cases h
    | ok pr =>
      rw [hs] at h
      obtain ⟨srep, sn⟩ := pr
      have hsec := runSection_total r driver s srep sn hs
      have hrest := ih (rollup rep srep) (n + sn) rep' n' h
      simp only [rollup] at hrest
      omega

theorem runChapter_total (r : Rand) (driver : Driver) (c : ChapterM)
    (crep : Report) (cn : Nat)
    (h : runChapter r driver c = .ok (crep, cn)) :
    crep.right + crep.wrong = cn := by
  rw [runChapter] at h
  cases hs : runSections r driver c.sections (newReport "Chapter") 0 with
  | error e => rw [hs] at h; cases h
  | ok pr =>
    rw [hs] at h
    obtain ⟨rep, n⟩ := pr
    simp only [Except.ok.injEq, Prod.mk.injEq] at h
    obtain ⟨h1, rfl⟩ := h
    have htot := runSections_total r driver c.sections
      (newReport "Chapter") 0 rep n hs
    subst h1
    simp only [newReport] at htot
    simpa using htot

theorem runChapters_total (r : Rand) (driver : Driver) (cs : List ChapterM) :
    ∀ (rep : Report) (n : Nat) (rep' : Report) (n' : Nat),
      runChapters r driver cs rep n = .ok (rep', n') →
      rep'.right + rep'.wrong + n = rep.right + rep.wrong + n' := by
  induction cs with
  | nil =>
    intro rep n rep' n' h
    simp only [runChapters, Except.ok.injEq, Prod.mk.injEq] at h
    obtain ⟨rfl, rfl⟩ := h
    omega
  | cons c cs ih =>
    intro rep n rep' n' h
    rw [runChapters] at h
    cases hc : runChapter r driver c with
    | error e => rw [hc] at h; cases h
    | ok pr =>
      rw [hc] at h
      obtain ⟨crep, cn⟩ := pr
      have hch := runChapter_total r driver c crep cn hc
      have hrest := ih (rollup rep crep) (n + cn) rep' n' h
      simp only [rollup] at hrest
      omega

/-- **C3**: for every complete session in which the driver answers each
`Question` event exactly once before pulling the next event, the terminal
(unit-test level) report satisfies `right + wrong = number of Question events
emitted`, via the additive roll-up of section reports into chapter reports
into the unit-test report. -/
theorem session_rollup_total (r : Rand) (driver : Driver) (u : UnitTestM)
    (rep : Report) (n : Nat)
    (h : runUnitTest r driver u = .ok (rep, n)) :
    rep.right + rep.wrong = n := by
  rw [runUnitTest] at h
  cases hc : runChapters r driver u.chapters (newReport "UnitTest") 0 with
  | error e => rw [hc] at h; cases h
  | ok pr =>
    rw [hc] at h
    obtain ⟨urep, un⟩ := pr
    simp only [Except.ok.injEq, Prod.mk.injEq] at h
    obtain ⟨h1, rfl⟩ := h
    have htot := runChapters_total r driver u.chapters
      (newReport "UnitTest") 0 urep un hc
    subst h1
    simp only [newReport] at htot
    simpa using htot

/-- C3 witness: the spec's end-to-end scenario — one chapter, one section, one
true-or-false category with the single fact `Sky is blue → True`, the driver
answering `True` — emits exactly one Question event and finalizes the
terminal report with `right + wrong = 1`. -/
theorem session_rollup_total_witness :
    (Report.mk "UnitTest" none 1 0 [] true).right +
      (Report.mk "UnitTest" none 1 0 [] true).wrong = 1 :=
  session_rollup_total wRand (fun _ => "True")
    (UnitTestM.mk "Bank" [ChapterM.mk "Ch"
      [SectionM.mk "Sec" [CategoryM.trueOrFalse
        [Fact.mk none ["Sky is blue"] ["True"]]]]])
    (Report.mk "UnitTest" none 1 0 [] true) 1 (by rfl)

theorem mkAnswer_error_iff (tf : Bool) (t : String) :
    isError (mkAnswer tf t) = answerViolation tf (.answer t) := by
  rw [mkAnswer, answerViolation]
  cases h : (tf && !(t == "True" || t == "False"))
  · rfl
  · rfl

theorem factAnswers_error_iff (tf : Bool) (l : List FNode) :
    isError (factAnswers tf l) = l.any (answerViolation tf) := by
  induction l with
  | nil => rfl
  | cons n rest ih =>
    cases n with
    | question t =>
      simp only [factAnswers, List.any_cons, answerViolation, ih,
        Bool.false_or]
    | answer t =>
      rw [List.any_cons]
      cases hmk : mkAnswer tf t with
      | error e =>
        have hv : answerViolation tf (.answer t) = true := by
          rw [← mkAnswer_error_iff, hmk]; rfl
        simp [factAnswers, hmk, hv, isError]
      | ok a =>
        have hv : answerViolation tf (.answer t) = false := by
          rw [← mkAnswer_error_iff, hmk]; rfl
        cases hr : factAnswers tf rest with
        | error e =>
          have h2 : rest.any (answerViolation tf) = true := by
            rw [← ih, hr]; rfl
          simp [factAnswers, hmk, hr, hv, h2, isError]
        | ok l2 =>
          have h2 : rest.any (answerViolation tf) = false := by
            rw [← ih, hr]; rfl
          simp [factAnswers, hmk, hr, hv, h2, isError]

theorem factAnswers_ok_nil (tf : Bool) (l : List FNode) (res : List String)
    (h : factAnswers tf l = .ok res) :
    res = [] ↔ l.any isAnswerNode = false := by
  induction l generalizing res with
  | nil =>
    simp only [factAnswers] at h
    cases h
    simp
  | cons n rest ih =>
    cases n with
    | question t =>
      simp only [factAnswers] at h
      rw [ih res h, List.any_cons]
      simp [isAnswerNode]
    | answer t =>
      simp only [factAnswers] at h
      cases hmk : mkAnswer tf t with
      | error e => rw [hmk] at h; cases h
      | ok a =>
        rw [hmk] at h
        cases hr : factAnswers tf rest with
        | error e => rw [hr] at h; cases h
        | ok l2 =>
          rw [hr] at h
          cases h
          rw [List.any_cons]
          simp [isAnswerNode]

theorem mkFact_error_iff (tf : Bool) (node : FactNode) :
    isError (mkFact tf node) = factViolation tf node := by
  rw [mkFact, factViolation]
  cases hfa : factAnswers tf node.children with
  | error e =>
    have h : node.children.any (answerViolation tf) = true := by
      rw [← factAnswers_error_iff, hfa]; rfl
    simp [isError, h]
  | ok res =>
    have h : node.children.any (answerViolation tf) = false := by
      rw [← factAnswers_error_iff, hfa]; rfl
    by_cases hres : res = []
    · have h2 := (factAnswers_ok_nil tf node.children res hfa).mp hres
      simp [isError, h, h2, hres]
    · have h2 : node.children.any isAnswerNode = true := by
        rcases Bool.eq_false_or_eq_true (node.children.any isAnswerNode)
          with hh | hh
        · exact hh
        · exact absurd ((factAnswers_ok_nil tf node.children res hfa).mpr hh)
            hres
      simp [isError, h, h2, hres]

theorem mapExcept_error_iff {α β : Type} (f : α → Except StructureError β)
    (v : α → Bool) (hf : ∀ x, isError (f x) = v x) (l : List α) :
    isError (mapExcept f l) = l.any v := by
  induction l with
  | nil => rfl
  | cons x rest ih =>
    rw [List.any_cons]
    cases hx : f x with
    | error e =>
      have h1 : v x = true := by rw [← hf, hx]; rfl
      simp [mapExcept, hx, h1, isError]
    | ok y =>
      have h1 : v x = false := by rw [← hf, hx]; rfl
      cases hr : mapExcept f rest with
      | error e =>
        have h2 : rest.any v = true := by rw [← ih, hr]; rfl
        simp [mapExcept, hx, hr, h1, h2, isError]
      | ok ys =>
        have h2 : rest.any v = false := by rw [← ih, hr]; rfl
        simp [mapExcept, hx, hr, h1, h2, isError]

theorem mapExcept_ok_nil {α β : Type} (f : α → Except StructureError β)
    (l : List α) (ys : List β) (h : mapExcept f l = .ok ys) :
    ys = [] ↔ l = [] := by
  induction l generalizing ys with
  | nil =>
    simp only [mapExcept] at h
    cases h
    simp
  | cons x rest ih =>
    simp only [mapExcept] at h
    cases hx : f x with
    | error e => rw [hx] at h; cases h
    | ok y =>
      rw [hx] at h
      cases hr : mapExcept f rest with
      | error e => rw [hr] at h; cases h
      | ok ys2 =>
        rw [hr] at h
        cases h
        simp

theorem buildLevel_error_iff {α β γ : Type} [DecidableEq β]
    (f : α → Except StructureError β) (v : α → Bool)
    (hf : ∀ x, isError (f x) = v x) (l : List α)
    (err : StructureError) (build : List β → γ) :
    isError (buildLevel f l err build) = (l.any v || l.isEmpty) := by
  rw [buildLevel]
  cases hm : mapExcept f l with
  | error e =>
    have h1 : l.any v = true := by rw [← mapExcept_error_iff f v hf, hm]; rfl
    simp [h1, isError]
  | ok ys =>
    have h1 : l.any v = false := by rw [← mapExcept_error_iff f v hf, hm]; rfl
    by_cases hys : ys = []
    · have h2 : l = [] := (mapExcept_ok_nil f l ys hm).mp hys
      simp [h1, h2, hys, isError]
    · have h2 : l ≠ [] := fun hc => hys ((mapExcept_ok_nil f l ys hm).mpr hc)
      simp [h1, hys, isError, List.isEmpty_iff, h2]

theorem mkCategory_error_iff (node : CategoryNode) :
    isError (mkCategory node) = categoryViolation node := by
  rw [mkCategory, categoryViolation]
  by_cases h1 : node.attr = "matching"
  · have htf : decide (node.attr = "true_or_false") = false := by
      rw [h1]; rfl
    rw [if_pos h1, if_pos (Or.inl h1), mkCategoryInit,
      buildLevel_error_iff (mkFact false)
        (factViolation false) (mkFact_error_iff false), htf]
  · rw [if_neg h1]
    by_cases h2 : node.attr = "multiple_choice"
    · have htf : decide (node.attr = "true_or_false") = false := by
        rw [h2]; rfl
      rw [if_pos h2, if_pos (Or.inr (Or.inl h2)), mkCategoryInit,
        buildLevel_error_iff (mkFact false)
          (factViolation false) (mkFact_error_iff false), htf]
    · rw [if_neg h2]
      by_cases h3 : node.attr = "true_or_false"
      · have htf : decide (node.attr = "true_or_false") = true := by
          rw [h3]; rfl
        rw [if_pos h3, if_pos (Or.inr (Or.inr h3)), mkCategoryInit,
          buildLevel_error_iff (mkFact true)
            (factViolation true) (mkFact_error_iff true), htf]
      · rw [if_neg h3, if_neg (by tauto)]
        rfl

theorem mkSection_error_iff (node : SectionNode) :
    isError (mkSection node) = sectionViolation node := by
  rw [mkSection, sectionViolation]
  exact buildLevel_error_iff mkCategory categoryViolation
    mkCategory_error_iff node.children _ _

theorem mkChapter_error_iff (node : ChapterNode) :
    isError (mkChapter node) = chapterViolation node := by
  rw [mkChapter, chapterViolation]
  exact buildLevel_error_iff mkSection sectionViolation
    mkSection_error_iff node.children _ _

/-- **C4**: construction of the structural model from a document-tree root
fails with a `StructureError` exactly when some level is empty (unit test,
chapter, section, category's fact list, or fact's answer list), some
category's declared type is not one of the three recognized kinds, or some
true/false answer text is not `True`/`False`.  Construction recurses through
the whole tree eagerly, so the equivalence covers violations at any depth
before any session can start. -/
theorem structural_validation_error_iff (root : RootNode) :
    isError (mkUnitTest root) = rootViolation root := by
  rw [mkUnitTest, rootViolation]
  exact buildLevel_error_iff mkChapter chapterViolation
    mkChapter_error_iff root.children _ _

end QuizMe
